import Mathlib

/-!
# Verification of the healthylinkx-a2a-server repository

This file embeds, in Lean 4, the behaviourally relevant parts of the
`healthylinkx-a2a-server` JavaScript repository and proves (or refutes)
the specification claims about it.

The repository contains several near-duplicate variants of the same small
A2A (Agent-to-Agent) JSON-RPC adapter:

* `a2a/src/lambdaAdapter.js` — the `LambdaA2AAdapter` class (JSON-RPC
  routing, in-memory task map) and the `DoctorSearchExecutor` class
  (regex-based parameter extraction, call to the external `SearchDoctors`
  collaborator, result formatting);
* `a2a/src/index.js` — the Lambda-native REST variant (zod-schema
  parameter extraction `SearchDoctorsArgsSchema` / `parseSearchArgs`,
  the `HealthylinkxExecutor` event-publishing state machine);
* `a2a/infra/LambdaDeployer.js` — the deployment tooling
  (`waitForLambdaReady`, `sendWithConflictRetry`) together with an
  Express-based variant (`executeDoctorSearch`, the `/a2a` route).

Conventions of the embedding:

* JS strings are Lean `String`s; JS `undefined`/missing values are
  `Option`; dynamic (string-or-array) values get small dedicated sums.
* JS numbers appearing here are integers (ids, error codes, delays),
  embedded as `Int`/`Nat`.
* External effects (the `SearchDoctors` network call, `JSON.parse`,
  clocks, generated random ids) are oracles passed in as parameters.
* Every definition is executable, so theorems about concrete inputs can
  be settled by `decide`/`rfl`.
-/

/-! ## JS primitive string semantics -/

/-- JS whitespace (the class matched by the regex `\s` and trimmed by
`String.prototype.trim`): ASCII whitespace, NBSP, the Unicode
`Space_Separator` block, line/paragraph separators and the BOM. -/
def jsIsSpace (c : Char) : Bool :=
  c == ' ' || c == '\t' || c == '\n' || c == '\u000b' || c == '\u000c' ||
  c == '\r' || c == '\u00a0' || c == '\u1680' ||
  ('\u2000' ≤ c && c ≤ '\u200a') ||
  c == '\u2028' || c == '\u2029' || c == '\u202f' || c == '\u205f' ||
  c == '\u3000' || c == '\ufeff'

/-- JS word characters, the class matched by the regex `\w`:
`[A-Za-z0-9_]`. -/
def jsIsWord (c : Char) : Bool :=
  ('a' ≤ c && c ≤ 'z') || ('A' ≤ c && c ≤ 'Z') ||
  ('0' ≤ c && c ≤ '9') || c == '_'

/-- ASCII decimal digit, the class matched by the regex `\d`. -/
def jsIsDigit (c : Char) : Bool := '0' ≤ c && c ≤ '9'

/-- `String.prototype.trimStart`-style left trim (used as half of
`trim`). -/
def jsTrimLeft (s : String) : String := ⟨s.data.dropWhile jsIsSpace⟩

/-- `String.prototype.trimEnd`-style right trim (used as half of
`trim`). -/
def jsTrimRight (s : String) : String :=
  ⟨(s.data.reverse.dropWhile jsIsSpace).reverse⟩

/-- JS `String.prototype.trim`: drop leading and trailing whitespace. -/
def jsTrim (s : String) : String := jsTrimRight (jsTrimLeft s)

/-- Left-brace character, written via its code point. -/
def lbraceChar : Char := Char.ofNat 123

/-! ## The regexes of `parseSearchMessage`

`parseSearchMessage` (identical in `lambdaAdapter.js` and in the Express
variant inside `LambdaDeployer.js`) runs four `String.prototype.match`
calls:

* `/(?:named?|lastname|last name)\s+(\w+)/i`
* `/\b(\d{5})\b/`
* `/\b(male|female)\b/i`
* `/(?:specialty|specialization|type|field)\s+(\w+)/i`

Each is embedded as a first-match scan over the character list: JS
`match` tries every start position left to right and returns the first
full match; ordered alternation and the greedy `d?` of `named?` are
reproduced by the ordered key lists below (`\s+`/`\w+` are greedy, and
since `\s` and `\w` are disjoint no further backtracking can succeed). -/

/-- Scan all start positions left to right, keeping track of the
previous character (for `\b` word-boundary tests), and return the first
position where the single-position matcher `f` succeeds. -/
def scanPos {α : Type} (f : Option Char → List Char → Option α) :
    Option Char → List Char → Option α
  | _, [] => none
  | prev, c :: cs =>
    match f prev (c :: cs) with
    | some r => some r
    | none => scanPos f (some c) cs

/-- Word-boundary test for a match that starts with a word character:
`\b` holds iff the previous character is absent or not a word
character. -/
def boundaryBefore (prev : Option Char) : Bool :=
  match prev with
  | none => true
  | some p => !jsIsWord p

/-- Word-boundary test after a match that ends with a word character:
`\b` holds iff the rest is empty or starts with a non-word character. -/
def boundaryAfter (rest : List Char) : Bool :=
  match rest with
  | [] => true
  | r :: _ => !jsIsWord r

/-- Numeric value of a digit list (the effect of `parseInt` on the five
captured digits). -/
def digitsVal (ds : List Char) : Nat :=
  ds.foldl (fun acc c => acc * 10 + (c.toNat - '0'.toNat)) 0

/-- Single-position matcher for `\b(\d{5})\b`: five digits surrounded by
word boundaries. -/
def zipHere (prev : Option Char) : List Char → Option Nat
  | d1 :: d2 :: d3 :: d4 :: d5 :: rest =>
    if boundaryBefore prev && [d1, d2, d3, d4, d5].all jsIsDigit &&
        boundaryAfter rest then
      some (digitsVal [d1, d2, d3, d4, d5])
    else none
  | _ => none

/-- Case-insensitive literal prefix strip (the `/i` flag on an
alternation key); returns the remaining characters on success. -/
def stripCI : List Char → List Char → Option (List Char)
  | [], cs => some cs
  | _ :: _, [] => none
  | p :: ps, c :: cs => if p.toLower == c.toLower then stripCI ps cs else none

/-- Match `\s+(\w+)` and return the capture with its original casing. -/
def wsThenWord : List Char → Option String
  | [] => none
  | c :: cs =>
    if jsIsSpace c then
      match cs.dropWhile jsIsSpace with
      | [] => none
      | r :: rs =>
        if jsIsWord r then some ⟨r :: rs.takeWhile jsIsWord⟩ else none
    else none

/-- Single-position matcher for `(?:k1|k2|…)\s+(\w+)` with the ordered,
case-insensitive alternation keys `keys`. -/
def keyedHere (keys : List (List Char)) (cs : List Char) : Option String :=
  keys.findSome? fun k => (stripCI k cs).bind wsThenWord

/-- Alternation keys of the lastname regex, in JS backtracking order:
`named?` tries `named` then `name`, then `lastname`, then `last name`. -/
def lastnameKeys : List (List Char) :=
  ["named".data, "name".data, "lastname".data, "last name".data]

/-- Alternation keys of the specialty regex, in source order. -/
def specialtyKeys : List (List Char) :=
  ["specialty".data, "specialization".data, "type".data, "field".data]

/-- Single-position matcher for `\b(male|female)\b` (ordered
alternation); the capture is returned already lower-cased, which equals
the effect of the source's `.toLowerCase()` on the capture. -/
def genderHere (prev : Option Char) (cs : List Char) : Option String :=
  if boundaryBefore prev then
    match stripCI "male".data cs with
    | some rest => if boundaryAfter rest then some "male" else none
    | none =>
      match stripCI "female".data cs with
      | some rest => if boundaryAfter rest then some "female" else none
      | none => none
  else none

/-- `message.match(/\b(\d{5})\b/)`, as the captured number. -/
def findZipcode (s : String) : Option Nat := scanPos zipHere none s.data

/-- `message.match(/(?:named?|lastname|last name)\s+(\w+)/i)`, as the
captured word. -/
def findLastname (s : String) : Option String :=
  scanPos (fun _ cs => keyedHere lastnameKeys cs) none s.data

/-- `message.match(/\b(male|female)\b/i)`, capture lower-cased. -/
def findGender (s : String) : Option String := scanPos genderHere none s.data

/-- `message.match(/(?:specialty|specialization|type|field)\s+(\w+)/i)`,
as the captured word. -/
def findSpecialty (s : String) : Option String :=
  scanPos (fun _ cs => keyedHere specialtyKeys cs) none s.data

/-- The extracted search parameters: fields that did not match are
absent (`none`), exactly as in the JS object returned by
`parseSearchMessage`. -/
structure SearchParams where
  lastname : Option String
  zipcode : Option Nat
  gender : Option String
  specialty : Option String
deriving Repr, DecidableEq

/-- `parseSearchMessage` from `lambdaAdapter.js` (the identical copy in
the Express variant of `LambdaDeployer.js` is embedded by this same
definition). -/
def parseSearchMessage (message : String) : SearchParams :=
  { lastname := findLastname message
    zipcode := findZipcode message
    gender := findGender message
    specialty := findSpecialty message }

/-- JS truthiness of an optional number (`!searchParams.zipcode`):
falsy iff absent or zero. -/
def falsyNum (v : Option Nat) : Bool :=
  match v with
  | none => true
  | some n => n == 0

/-- JS truthiness of an optional string (`!searchParams.lastname`,
`part.text`, …): falsy iff absent or empty. -/
def falsyStr (v : Option String) : Bool :=
  match v with
  | none => true
  | some s => s == ""

/-- JS `a || b` for an optional string defaulting to a generated value
(`params.id || task-…`). -/
def jsOrStr (v : Option String) (dflt : String) : String :=
  match v with
  | none => dflt
  | some s => if s == "" then dflt else s

/-! ## JSON values

`JSON.parse` output and other dynamic JS values are modeled by `JsVal`.
A number is `num (some n)` when integer-valued and `num none` otherwise
(non-integer; `NaN` cannot occur in parsed JSON).  Object field lists
are the final properties of the object (duplicate keys in a JSON text
are already collapsed, last one winning, by `JSON.parse`). -/

inductive JsVal where
  | null
  | bool (b : Bool)
  | num (n : Option Int)
  | str (s : String)
  | arr (elems : List JsVal)
  | obj (fields : List (String × JsVal))

/-- JS property access `v.k` for a named key: defined on objects,
`undefined` (`none`) on every other value except `null`/`undefined`,
whose access throws before this function is reached (callers model that
case separately). -/
def getField (v : JsVal) (k : String) : Option JsVal :=
  match v with
  | .obj fs => (fs.find? (fun f => f.1 == k)).map (fun f => f.2)
  | _ => none

/-- JS truthiness of a `JsVal`. -/
def truthy (v : JsVal) : Bool :=
  match v with
  | .null => false
  | .bool b => b
  | .num (some n) => n != 0
  | .num none => true
  | .str s => s != ""
  | .arr _ => true
  | .obj _ => true

/-- JS truthiness of a possibly-absent value (`undefined` is falsy). -/
def truthyOpt (v : Option JsVal) : Bool :=
  match v with
  | none => false
  | some x => truthy x

/-- JS strict equality `v === "lit"` between a possibly-absent value and
a string literal. -/
def isStrEq (v : Option JsVal) (lit : String) : Bool :=
  match v with
  | some (.str s) => s == lit
  | _ => false

/-- `String.intercalate`-style join, defined locally so that its
equations are directly usable (`Array.prototype.join` and the
"one blank line between entries" claim formula are both stated with
it). -/
def icat (sep : String) : List String → String
  | [] => ""
  | [x] => x
  | x :: xs => x ++ sep ++ icat sep xs

mutual
/-- JS string conversion as performed by template literals
(`` `${v}` ``): objects render as `[object Object]`, arrays join their
elements with commas.  Non-integer numbers (which no claim exercises)
render as a fixed placeholder. -/
def jsTemplate : JsVal → String
  | .null => "null"
  | .bool true => "true"
  | .bool false => "false"
  | .num (some n) => toString n
  | .num none => "<number>"
  | .str s => s
  | .arr xs => jsTemplateElems xs
  | .obj _ => "[object Object]"

/-- `Array.prototype.join(",")` on the element conversions; `null`
elements render as the empty string inside a join. -/
def jsTemplateElems : List JsVal → String
  | [] => ""
  | [x] => (match x with | .null => "" | _ => jsTemplate x)
  | x :: xs =>
    (match x with | .null => "" | _ => jsTemplate x) ++ "," ++
      jsTemplateElems xs
end

/-! ## Doctor records and the result formatter

`SearchDoctors` rows are raw JS objects; the executor maps them to
doctor records by field renaming.  A field is `some s` when it holds the
string `s` and `none` when it is absent (or holds a non-string value,
which behaves identically in the formatter: `.trim()` is not a
function on it / it throws on `undefined`). -/

/-- A raw row of a successful `SearchDoctors` response. -/
structure DynRow where
  Provider_Full_Name : Option String
  Provider_Full_Street : Option String
  Provider_Full_City : Option String
  Classification : Option String
deriving Repr, DecidableEq

/-- The dynamic payload of a `SearchDoctors` response: an array of rows
on success, an error string otherwise. -/
inductive SVal where
  | str (s : String)
  | arr (rows : List DynRow)
deriving Repr, DecidableEq

/-- Template-literal conversion of an `SVal` (used for
`` `Error: ${errorMessage}` ``). -/
def svalTemplate : SVal → String
  | .str s => s
  | .arr rows => icat "," (rows.map fun _ => "[object Object]")

/-- A doctor record as mapped by the executor (`row.Provider_Full_Name`
and friends). -/
structure DynDoc where
  name : Option String
  address : Option String
  city : Option String
  classification : Option String
deriving Repr, DecidableEq

/-- The field renaming `result.result.map(row => ({name: …}))`. -/
def rowToDoc (r : DynRow) : DynDoc :=
  { name := r.Provider_Full_Name
    address := r.Provider_Full_Street
    city := r.Provider_Full_City
    classification := r.Classification }

/-- A doctor record all of whose fields are strings (the `DoctorRecord`
of the data model); the dynamic formatter restricted to these records
never throws. -/
structure SDoc where
  name : String
  address : String
  city : String
  classification : String
deriving Repr, DecidableEq

/-- Inclusion of well-typed records into dynamic ones. -/
def sdocToDyn (d : SDoc) : DynDoc :=
  { name := some d.name
    address := some d.address
    city := some d.city
    classification := some d.classification }

/-- The fixed zero-result sentence of `formatDoctorResults`. -/
def noDoctorsText : String := "No doctors found matching your search criteria."

/-- The count-aware header of `formatDoctorResults` (singular for 1,
plural for `count > 1`). -/
def headerText (count : Nat) : String :=
  "Found " ++ toString count ++ " doctor" ++ (if 1 < count then "s" else "") ++
    " matching your search:"

/-- `doc.name.trim()` on a dynamic field: throws (`.error`) when the
field is not a string. -/
def trimField : Option String → Except Unit String
  | some s => .ok (jsTrim s)
  | none => .error ()

/-- `` `${doc.classification}` `` on a dynamic field: `undefined`
renders as the literal string `undefined` (this field is interpolated,
not trimmed). -/
def showField : Option String → String
  | some s => s
  | none => "undefined"

/-- One iteration of the `result.doctors.forEach` body: the three `+=`
lines for doctor `d` at zero-based index `i`, evaluated left to right
(so the first non-string among name, address, city throws). -/
def entryBlockDyn (i : Nat) (d : DynDoc) : Except Unit String := do
  let n ← trimField d.name
  let a ← trimField d.address
  let c ← trimField d.city
  pure (toString (i + 1) ++ ". " ++ n ++ "\n" ++
    "   Address: " ++ a ++ ", " ++ c ++ "\n" ++
    "   Specialty: " ++ showField d.classification ++ "\n\n")

/-- The whole `forEach` accumulation over the doctor list. -/
def buildEntriesDyn (i : Nat) : List DynDoc → Except Unit String
  | [] => .ok ""
  | d :: ds => do
    let e ← entryBlockDyn i d
    let rest ← buildEntriesDyn (i + 1) ds
    pure (e ++ rest)

/-- `formatDoctorResults` from `lambdaAdapter.js` (the identical copy in
the Express variant is embedded by this same definition), on dynamic
records: `.error` is a thrown `TypeError`, handled by each caller's
`try`/`catch`. -/
def formatDoctorResultsDyn (count : Nat) (doctors : List DynDoc) :
    Except Unit String :=
  if count == 0 then .ok noDoctorsText
  else (buildEntriesDyn 0 doctors).map
    (fun t => jsTrim (headerText count ++ "\n\n" ++ t))

/-- `entryBlockDyn` restricted to well-typed records (no throw
possible). -/
def entryBlock (i : Nat) (d : SDoc) : String :=
  toString (i + 1) ++ ". " ++ jsTrim d.name ++ "\n" ++
    "   Address: " ++ jsTrim d.address ++ ", " ++ jsTrim d.city ++ "\n" ++
    "   Specialty: " ++ d.classification ++ "\n\n"

/-- `buildEntriesDyn` restricted to well-typed records. -/
def buildEntries (i : Nat) : List SDoc → String
  | [] => ""
  | d :: ds => entryBlock i d ++ buildEntries (i + 1) ds

/-- `formatDoctorResults` restricted to well-typed records (the
`DoctorRecord` model of the spec); see `formatDyn_on_sdocs` for the
agreement with the dynamic embedding. -/
def formatDoctorResults (count : Nat) (doctors : List SDoc) : String :=
  if count == 0 then noDoctorsText
  else jsTrim (headerText count ++ "\n\n" ++ buildEntries 0 doctors)

/-! ## Claim-side formatter formulas

These two definitions follow the words of the formatting claim, not the
source; they exist to be compared with `formatDoctorResults`.
`claimFormatSpec` is the claim exactly as stated (name and address
trimmed, city and classification verbatim, one blank line between
entries).  `claimFormatAmended` is the nearest true statement: city is
also trimmed, and trailing whitespace of the whole text (hence of the
last entry's classification) is removed. -/

/-- One claimed entry `"{index}. {name}\n   Address: {address},
{city}\n   Specialty: {classification}"` with only name and address
trimmed. -/
def claimEntry (i : Nat) (d : SDoc) : String :=
  toString (i + 1) ++ ". " ++ jsTrim d.name ++ "\n" ++
    "   Address: " ++ jsTrim d.address ++ ", " ++ d.city ++ "\n" ++
    "   Specialty: " ++ d.classification

/-- The claimed entries, numbered from zero-based index `i`. -/
def claimEntries (i : Nat) : List SDoc → List String
  | [] => []
  | d :: ds => claimEntry i d :: claimEntries (i + 1) ds

/-- The formatting claim as stated. -/
def claimFormatSpec (doctors : List SDoc) : String :=
  if doctors.isEmpty then noDoctorsText
  else headerText doctors.length ++ "\n\n" ++ icat "\n\n" (claimEntries 0 doctors)

/-- One amended entry: city is trimmed as well. -/
def claimEntryAmended (i : Nat) (d : SDoc) : String :=
  toString (i + 1) ++ ". " ++ jsTrim d.name ++ "\n" ++
    "   Address: " ++ jsTrim d.address ++ ", " ++ jsTrim d.city ++ "\n" ++
    "   Specialty: " ++ d.classification

/-- The amended entries, numbered from zero-based index `i`. -/
def claimEntriesAmended (i : Nat) : List SDoc → List String
  | [] => []
  | d :: ds => claimEntryAmended i d :: claimEntriesAmended (i + 1) ds

/-- The amended formatting claim: header, blank-line-separated entries
with name/address/city trimmed, and trailing whitespace of the whole
text removed. -/
def claimFormatAmended (doctors : List SDoc) : String :=
  if doctors.isEmpty then noDoctorsText
  else jsTrimRight
    (headerText doctors.length ++ "\n\n" ++ icat "\n\n" (claimEntriesAmended 0 doctors))

/-! ## Tasks and the task store (`LambdaA2AAdapter`) -/

/-- The error object of a failed task status. -/
structure ErrInfo where
  code : Int
  message : SVal
deriving Repr, DecidableEq

/-- A task status: a state string (`submitted`/`working`/`completed`/
`failed`/`canceled`) plus, for failures, the error object. -/
structure TaskStatus where
  state : String
  error : Option ErrInfo
deriving Repr, DecidableEq

/-- One part of an agent message produced by the executor. -/
structure TaskMsgPart where
  kind : String
  text : String
deriving Repr, DecidableEq

/-- A history message produced by the executor. -/
structure TaskMsg where
  messageId : String
  role : String
  parts : List TaskMsgPart
deriving Repr, DecidableEq

/-- A task object of the Lambda adapter (named `ATask` because Lean's
core library already uses `Task`). -/
structure ATask where
  id : String
  contextId : String
  status : TaskStatus
  history : List TaskMsg
deriving Repr, DecidableEq

/-- The in-memory task map (`this.tasks`), modeled by its
`get`-observations. -/
def Store : Type := String → Option ATask

/-- `this.tasks.set(k, v)`. -/
def storeSet (tasks : Store) (k : String) (v : ATask) : Store :=
  fun k' => if k' = k then some v else tasks k'

/-- A fresh adapter's empty task map. -/
def emptyStore : Store := fun _ => none

/-! ## The `DoctorSearchExecutor` (`lambdaAdapter.js`) -/

/-- The oracle for the external `SearchDoctors` collaborator, in the
source's argument order `(gender, lastname, specialty, zipcode)`. -/
structure SearchRes where
  statusCode : Int
  result : SVal
deriving Repr, DecidableEq

/-- `SearchDoctors` as a pure oracle. -/
def SearchFn : Type :=
  Option String → Option String → Option String → Option Nat → SearchRes

/-- An observable event: its `kind`/`type` tag, the status state it
carries (if any) and its `final` flag (`none` when the event object has
no `final` property).  Task ids, context ids, timestamps and artifact
payloads do not affect ordering or finality and are elided. -/
structure XEvent where
  kind : String
  state : Option String
  final : Option Bool
deriving Repr, DecidableEq

/-- One step of an executor run, for ordering claims: an event-bus
`publish`, the parameter-extraction call, the collaborator call, or the
`eventBus.finished()` call. -/
inductive ExAction where
  | publish (e : XEvent)
  | extractCall
  | searchCall
  | finishedCall
deriving Repr, DecidableEq

/-- The events published during a trace, in order. -/
def publishedEvents : List ExAction → List XEvent
  | [] => []
  | .publish e :: rest => e :: publishedEvents rest
  | _ :: rest => publishedEvents rest

/-- The `working` status event published by `DoctorSearchExecutor`
(`{type:'task-status', taskId, status:{state:'working'}}`): it carries
no `final` property. -/
def workingEventDS : XEvent := ⟨"task-status", some "working", none⟩

/-- The user message as consumed by `extractMessageText`: `parts` is
`some` exactly when `userMessage.parts` exists and is an array. -/
structure MsgIn where
  parts : Option (List JsVal)

/-- `DoctorSearchExecutor.extractMessageText`: keep the parts whose
`kind` is `'text'` with truthy `text`, convert each `text` and join with
single spaces. -/
def extractMessageText (userMessage : Option MsgIn) : String :=
  match userMessage with
  | none => ""
  | some m =>
    match m.parts with
    | none => ""
    | some ps =>
      icat " "
        ((ps.filter (fun p =>
            isStrEq (getField p "kind") "text" &&
              truthyOpt (getField p "text"))).map
          (fun p =>
            match getField p "text" with
            | some v => jsTemplate v
            | none => "undefined"))

/-- The validation-failure message of the executor. -/
def missingParamsText : String :=
  "Missing required parameters. Please provide at least zipcode or lastname in your message."

/-- The generic catch-all message of the executor. -/
def internalErrorText : String := "Internal error during doctor search"

/-- `DoctorSearchExecutor.createSuccessResult`: completed status, agent
message appended to the task's history. -/
def createSuccessResult (task : ATask) (genMsgId : String) (responseText : String) :
    ATask :=
  { id := task.id
    contextId := task.contextId
    status := { state := "completed", error := none }
    history := task.history ++ [⟨genMsgId, "agent", [⟨"text", responseText⟩]⟩] }

/-- `DoctorSearchExecutor.createErrorResult`: failed status carrying
`{code: -32000, message}`, agent message `Error: …` appended to the
task's history. -/
def createErrorResult (task : ATask) (genMsgId : String) (errorMessage : SVal) :
    ATask :=
  { id := task.id
    contextId := task.contextId
    status := { state := "failed", error := some ⟨-32000, errorMessage⟩ }
    history := task.history ++
      [⟨genMsgId, "agent", [⟨"text", "Error: " ++ svalTemplate errorMessage⟩]⟩] }

/-- The outcome of a `DoctorSearchExecutor.execute` run: the returned
task, whether `SearchDoctors` was invoked, and the action trace. -/
structure DSResult where
  task : ATask
  searchCalled : Bool
  trace : List ExAction
deriving Repr

/-- `DoctorSearchExecutor.execute`: publish the working status, extract
the message text, parse it, validate, call the collaborator, format.
All exceptions of the `try` block (including the `TypeError` thrown by
`formatDoctorResults` on non-string fields and by `.map` on a string
payload) are caught and converted to the generic internal error result;
the function always returns a task. -/
def dsExecute (search : SearchFn) (genMsgId : String) (userMessage : Option MsgIn)
    (task : ATask) : DSResult :=
  let pre : List ExAction := [.publish workingEventDS]
  let messageText := extractMessageText userMessage
  let searchParams := parseSearchMessage messageText
  if falsyNum searchParams.zipcode && falsyStr searchParams.lastname then
    ⟨createErrorResult task genMsgId (.str missingParamsText), false,
      pre ++ [.extractCall]⟩
  else
    let res := search searchParams.gender searchParams.lastname
      searchParams.specialty searchParams.zipcode
    if res.statusCode != 200 then
      ⟨createErrorResult task genMsgId res.result, true,
        pre ++ [.extractCall, .searchCall]⟩
    else
      match res.result with
      | .str _ =>
        ⟨createErrorResult task genMsgId (.str internalErrorText), true,
          pre ++ [.extractCall, .searchCall]⟩
      | .arr rows =>
        let doctors := rows.map rowToDoc
        match formatDoctorResultsDyn doctors.length doctors with
        | .ok text =>
          ⟨createSuccessResult task genMsgId text, true,
            pre ++ [.extractCall, .searchCall]⟩
        | .error _ =>
          ⟨createErrorResult task genMsgId (.str internalErrorText), true,
            pre ++ [.extractCall, .searchCall]⟩

/-! ## The `LambdaA2AAdapter` JSON-RPC handlers -/

/-- The body of a Lambda response: a JSON-RPC success or error
envelope.  The `id` is `none` when the serialized body omits the key
(`JSON.stringify` drops `undefined`). -/
inductive RpcBody where
  | result (task : ATask) (id : Option JsVal)
  | error (code : Int) (message : String) (id : Option JsVal)

/-- A Lambda response (`statusCode` plus JSON-RPC body; the constant
content-type header is elided). -/
structure LResponse where
  statusCode : Nat
  body : RpcBody

/-- `createJsonRpcSuccessResponse` (HTTP 200 always). -/
def createJsonRpcSuccessResponse (id : Option JsVal) (t : ATask) : LResponse :=
  ⟨200, .result t id⟩

/-- `createJsonRpcErrorResponse` without the optional `data` argument
(no adapter call site passes one); HTTP 200 always. -/
def createJsonRpcErrorResponse (id : Option JsVal) (code : Int) (message : String) :
    LResponse :=
  ⟨200, .error code message id⟩

/-- The error code, if the response is an error envelope. -/
def respErrorCode (r : LResponse) : Option Int :=
  match r.body with
  | .error code _ _ => some code
  | .result _ _ => none

/-- `tasks/get` and `tasks/cancel` parameters (`params.id`; ids are
strings in every adapter-generated task). -/
structure GetParams where
  id : Option String

/-- `LambdaA2AAdapter.handleTasksGet`. -/
def handleTasksGet (tasks : Store) (params : Option GetParams) (id : Option JsVal) :
    LResponse :=
  match params with
  | none => createJsonRpcErrorResponse id (-32602) "Invalid params: id is required"
  | some p =>
    match p.id with
    | none => createJsonRpcErrorResponse id (-32602) "Invalid params: id is required"
    | some tid =>
      if tid == "" then
        createJsonRpcErrorResponse id (-32602) "Invalid params: id is required"
      else
        match tasks tid with
        | none =>
          createJsonRpcErrorResponse id (-32000)
            ("Task not found: " ++ tid ++
              ". Note: Tasks are only stored within a single Lambda invocation.")
        | some task => createJsonRpcSuccessResponse id task

/-- `LambdaA2AAdapter.handleTasksCancel`: overwrite the status with
`{state:'canceled'}` unconditionally when the task exists, and return
the updated store together with the response. -/
def handleTasksCancel (tasks : Store) (params : Option GetParams) (id : Option JsVal) :
    Store × LResponse :=
  match params with
  | none =>
    (tasks, createJsonRpcErrorResponse id (-32602) "Invalid params: id is required")
  | some p =>
    match p.id with
    | none =>
      (tasks, createJsonRpcErrorResponse id (-32602) "Invalid params: id is required")
    | some tid =>
      if tid == "" then
        (tasks, createJsonRpcErrorResponse id (-32602) "Invalid params: id is required")
      else
        match tasks tid with
        | none =>
          (tasks,
            createJsonRpcErrorResponse id (-32000)
              ("Task not found: " ++ tid ++
                ". Note: Tasks are only stored within a single Lambda invocation."))
        | some task =>
          let cancelled : ATask := { task with status := ⟨"canceled", none⟩ }
          (storeSet tasks tid cancelled, createJsonRpcSuccessResponse id cancelled)

/-- `message/send` parameters: optional caller-supplied task/context ids
and the user message. -/
structure SendParams where
  id : Option String
  contextId : Option String
  message : Option MsgIn

/-- `LambdaA2AAdapter.handleMessageSend`: create the task, run the
executor, store the result, and return it in a JSON-RPC *success*
envelope — the source returns the task this way both for failed and for
non-failed executor outcomes (its two branches coincide). -/
def handleMessageSend (search : SearchFn) (genTaskId genContextId genMsgId : String)
    (tasks : Store) (params : Option SendParams) (id : Option JsVal) :
    Store × LResponse :=
  match params with
  | none =>
    (tasks, createJsonRpcErrorResponse id (-32602) "Invalid params: message is required")
  | some p =>
    match p.message with
    | none =>
      (tasks,
        createJsonRpcErrorResponse id (-32602) "Invalid params: message is required")
    | some m =>
      let taskId := jsOrStr p.id genTaskId
      let contextId := jsOrStr p.contextId genContextId
      let task : ATask := ⟨taskId, contextId, ⟨"submitted", none⟩, []⟩
      let result := (dsExecute search genMsgId (some m) task).task
      (storeSet tasks taskId result, createJsonRpcSuccessResponse id result)

/-! ## The Express variant (`executeDoctorSearch` and the `/a2a` route
inside `LambdaDeployer.js`) -/

/-- Express-variant `params.message`: an object (whose `parts` is `some`
exactly when it exists and is an array), a plain string, or any other
value. -/
inductive ExpMessage where
  | msgObj (parts : Option (List JsVal))
  | msgStr (s : String)
  | othr

/-- Express-variant `message/send` params. -/
structure ExpParams where
  message : Option ExpMessage

/-- The message-text extraction at the top of `executeDoctorSearch`:
join the text parts when `message.parts` is an array, use the message
itself when it is a string, else the empty string. -/
def expExtractMessage (params : ExpParams) : String :=
  match params.message with
  | some (.msgObj (some ps)) => extractMessageText (some ⟨some ps⟩)
  | some (.msgStr s) => s
  | _ => ""

/-- Outcome of `executeDoctorSearch`: an `{error}` object, a `{result}`
object, or a thrown `TypeError` (`.map` on a string payload), which
propagates to the route's `catch`. -/
inductive EDSOut where
  | err (code : Int) (message : SVal)
  | ok (count : Nat) (doctors : List DynDoc) (query : SearchParams)
  | threw
deriving Repr, DecidableEq

/-- `executeDoctorSearch` from the Express variant, paired with whether
`SearchDoctors` was invoked. -/
def executeDoctorSearch (search : SearchFn) (params : ExpParams) : EDSOut × Bool :=
  let message := expExtractMessage params
  let searchParams := parseSearchMessage message
  if falsyNum searchParams.zipcode && falsyStr searchParams.lastname then
    (.err (-32602) (.str missingParamsText), false)
  else
    let res := search searchParams.gender searchParams.lastname
      searchParams.specialty searchParams.zipcode
    if res.statusCode != 200 then (.err (-32000) res.result, true)
    else
      match res.result with
      | .str _ => (.threw, true)
      | .arr rows => (.ok rows.length (rows.map rowToDoc) searchParams, true)

/-- The parsed request body of the Express `/a2a` route (produced by
`express.json()`). -/
structure ExpBody where
  jsonrpc : Option JsVal
  method : Option JsVal
  params : Option ExpParams
  id : Option JsVal

/-- An Express JSON-RPC response body.  An error's message is dynamic
(the collaborator's error payload is forwarded as-is); the debug-gated
`data` field of the -32603 response is elided (no claim touches it). -/
inductive ExpResp where
  | rpcResult (t : ATask) (id : Option JsVal)
  | rpcError (code : Int) (message : SVal) (id : Option JsVal)

/-- JS `id || null` on a possibly-absent dynamic value. -/
def jsOrNullVal (id : Option JsVal) : JsVal :=
  match id with
  | none => .null
  | some v => if truthy v then v else .null

/-- Template conversion of a possibly-absent value (`undefined` renders
as the literal string `undefined`). -/
def optTemplate (v : Option JsVal) : String :=
  match v with
  | none => "undefined"
  | some x => jsTemplate x

/-- The Express `POST /a2a` route: JSON-RPC version check, dispatch of
`message/send`, wrapping of `executeDoctorSearch`'s outcome.  The
`catch` around the whole handler converts any throw (the formatter's or
`executeDoctorSearch`'s `TypeError`) into a -32603 envelope whose id is
`req.body.id || null`.  The generated task/context/message ids are
oracles. -/
def a2aPost (search : SearchFn) (genTaskId genContextId genMsgId : String)
    (body : ExpBody) : ExpResp :=
  if !(isStrEq body.jsonrpc "2.0") then
    .rpcError (-32600) (.str "Invalid Request: jsonrpc must be \"2.0\"")
      (some (jsOrNullVal body.id))
  else if isStrEq body.method "message/send" then
    let out := executeDoctorSearch search (body.params.getD ⟨none⟩)
    match out.1 with
    | .err code m => .rpcError code m body.id
    | .ok count docs _ =>
      match formatDoctorResultsDyn count docs with
      | .ok text =>
        .rpcResult
          ⟨genTaskId, genContextId, ⟨"completed", none⟩,
            [⟨genMsgId, "agent", [⟨"text", text⟩]⟩]⟩
          body.id
      | .error _ =>
        .rpcError (-32603) (.str "Internal server error") (some (jsOrNullVal body.id))
    | .threw =>
      .rpcError (-32603) (.str "Internal server error") (some (jsOrNullVal body.id))
  else
    .rpcError (-32601)
      (.str ("Method not found: " ++ optTemplate body.method ++
        ". Supported methods: message/send"))
      body.id

/-! ## The Lambda-native REST variant (`index.js`) -/

/-- `a2aErrorToHttpStatus` from `index.js` (a `switch` on the A2A error
code). -/
def a2aErrorToHttpStatus (code : Int) : Nat :=
  if code == -32700 || code == -32600 || code == -32602 then 400
  else if code == -32601 then 404
  else if code == -32001 then 404
  else if code == -32002 then 409
  else if code == -32004 then 400
  else 500

/-- JS `Number(s)` on a string, restricted to optional-sign decimal
integer forms: other strings (including fractional and exponent forms,
which the schema would reject as non-integers anyway, and `NaN`
producers) map to `none`.  The whitespace-trimming and the empty-string
case (`Number("") = 0`) follow the JS specification; integer-valued
exotic literals such as `"1e3"` are not modeled (no claim exercises
them). -/
def jsNumber (s : String) : Option Int :=
  let t := (jsTrim s).data
  match t with
  | [] => some 0
  | '-' :: ds =>
    if ds ≠ [] && ds.all jsIsDigit then some (-(digitsVal ds : Int)) else none
  | '+' :: ds =>
    if ds ≠ [] && ds.all jsIsDigit then some (digitsVal ds : Int) else none
  | ds => if ds.all jsIsDigit then some (digitsVal ds : Int) else none

/-- The input fields read by `SearchDoctorsArgsSchema` (zod strips any
other key of the candidate object). -/
structure SDIn where
  zipcode : Option JsVal
  lastname : Option JsVal
  specialty : Option JsVal
  gender : Option JsVal

/-- The validated output of `SearchDoctorsArgsSchema`. -/
structure SDArgs where
  zipcode : Int
  lastname : String
  specialty : Option String
  gender : Option String
deriving Repr, DecidableEq

/-- The `z.preprocess` step of the zipcode field: a non-empty-after-trim
string is converted with `Number`, everything else passes through. -/
def zodPreprocessZip (v : Option JsVal) : Option JsVal :=
  match v with
  | some (.str s) => if jsTrim s != "" then some (.num (jsNumber s)) else some (.str s)
  | _ => v

/-- `z.number().int().gte(10000).lte(99999)` after the preprocess:
required, integer, five-digit range. -/
def zodZipcode (v : Option JsVal) : Option Int :=
  match zodPreprocessZip v with
  | some (.num (some n)) => if 10000 ≤ n && n ≤ 99999 then some n else none
  | _ => none

/-- `z.string().min(1)`: a required non-empty string. -/
def zodLastname (v : Option JsVal) : Option String :=
  match v with
  | some (.str s) => if 1 ≤ s.length then some s else none
  | _ => none

/-- `z.string().min(1).optional()`. -/
def zodOptionalMin1 (v : Option JsVal) : Option (Option String) :=
  match v with
  | none => some none
  | some (.str s) => if 1 ≤ s.length then some (some s) else none
  | _ => none

/-- `z.enum(['male','female']).optional()`. -/
def zodGender (v : Option JsVal) : Option (Option String) :=
  match v with
  | none => some none
  | some (.str s) => if s == "male" || s == "female" then some (some s) else none
  | _ => none

/-- `SearchDoctorsArgsSchema.safeParse` on the four read fields:
`some` is a zod success, `none` a zod failure. -/
def safeParseSearchDoctorsArgs (v : SDIn) : Option SDArgs := do
  let z ← zodZipcode v.zipcode
  let l ← zodLastname v.lastname
  let sp ← zodOptionalMin1 v.specialty
  let g ← zodGender v.gender
  pure ⟨z, l, sp, g⟩

/-- Read the schema's fields off a candidate JSON value (non-objects
yield four absent fields and hence a schema failure, exactly as zod
rejects a non-object input). -/
def sdInOfVal (sd : JsVal) : SDIn :=
  ⟨getField sd "zipcode", getField sd "lastname", getField sd "specialty",
    getField sd "gender"⟩

/-- JS `typeof v === 'object'` (true for objects, arrays and `null`). -/
def isObjLike (v : JsVal) : Bool :=
  match v with
  | .obj _ => true
  | .arr _ => true
  | .null => true
  | _ => false

/-- The guard `m && typeof m === 'object' && m.searchDoctors &&
typeof m.searchDoctors === 'object'` followed by the field read, as used
twice in `parseSearchArgs`. -/
def metaSearchDoctors (m : Option JsVal) : Option JsVal :=
  match m with
  | some v =>
    if truthy v && isObjLike v then
      match getField v "searchDoctors" with
      | some sd => if truthy sd && isObjLike sd then some sd else none
      | none => none
    else none
  | none => none

/-- `extractTextFromParts` from `index.js`: the `text` of the first part
that is an object with `kind === 'text'` and a string `text` (`none`
when `parts` is not an array or no part qualifies). -/
def extractTextFromParts (parts : Option (List JsVal)) : Option String :=
  match parts with
  | none => none
  | some ps =>
    ps.findSome? fun p =>
      if isStrEq (getField p "kind") "text" then
        match getField p "text" with
        | some (.str t) => some t
        | _ => none
      else none

/-- Helper of `splitWsRuns`: structural scan accumulating the current
run of non-whitespace characters (in reverse). -/
def splitWsRunsAux (cur : List Char) : List Char → List String
  | [] => if cur.isEmpty then [] else [⟨cur.reverse⟩]
  | c :: cs =>
    if jsIsSpace c then
      if cur.isEmpty then splitWsRunsAux [] cs
      else ⟨cur.reverse⟩ :: splitWsRunsAux [] cs
    else splitWsRunsAux (c :: cur) cs

/-- `text.split(/\s+/)` followed by `.map(t => t.trim()).filter(Boolean)`:
the maximal runs of non-whitespace characters (the split's possible
leading/trailing empty strings are exactly what the `filter(Boolean)`
removes, and trimming a run of non-whitespace characters is the
identity). -/
def splitWsRuns (cs : List Char) : List String := splitWsRunsAux [] cs

/-- JS `String.prototype.split('=')`. -/
def splitOnEq : List Char → List (List Char)
  | [] => [[]]
  | c :: cs =>
    if c == '=' then [] :: splitOnEq cs
    else
      match splitOnEq cs with
      | h :: t => (c :: h) :: t
      | [] => [[c]]

/-- The `key=value` tokens of the free-text fallback: words split on
`=`, kept only when the split has exactly two parts. -/
def tokenPairs (text : String) : List (String × String) :=
  (splitWsRuns text.data).filterMap fun w =>
    match splitOnEq w.data with
    | [k, v] => some (⟨k⟩, ⟨v⟩)
    | _ => none

/-- `Object.fromEntries(...)[k]`: the value of the *last* pair with key
`k` (later properties overwrite earlier ones). -/
def tokenLookup (pairs : List (String × String)) (k : String) : Option String :=
  ((pairs.reverse).find? fun p => p.1 == k).map fun p => p.2

/-- `text.trim().startsWith('{')`. -/
def trimStartsWithBrace (t : String) : Bool :=
  match (jsTrim t).data with
  | c :: _ => c == lbraceChar
  | [] => false

/-- The inputs of `parseSearchArgs`. -/
structure PSAIn where
  requestMetadata : Option JsVal
  messageMetadata : Option JsVal
  parts : Option (List JsVal)

/-- `parseSearchArgs` from `index.js`: four ordered attempts — request
metadata, message metadata, a JSON text part (`JSON.parse` is the
`jparse` oracle; its throw is caught and falls through), and the
`key=value` token fallback; `none` models the `null` return. -/
def parseSearchArgs (jparse : String → Except Unit JsVal) (input : PSAIn) :
    Option SDArgs :=
  match (metaSearchDoctors input.requestMetadata).bind
      (fun sd => safeParseSearchDoctorsArgs (sdInOfVal sd)) with
  | some a => some a
  | none =>
    match (metaSearchDoctors input.messageMetadata).bind
        (fun sd => safeParseSearchDoctorsArgs (sdInOfVal sd)) with
    | some a => some a
    | none =>
      let text := extractTextFromParts input.parts
      let try3 : Option SDArgs :=
        match text with
        | some t =>
          if trimStartsWithBrace t then
            match jparse t with
            | .ok v => safeParseSearchDoctorsArgs (sdInOfVal v)
            | .error _ => none
          else none
        | none => none
      match try3 with
      | some a => some a
      | none =>
        match text with
        | some t =>
          let pairs := tokenPairs t
          safeParseSearchDoctorsArgs
            ⟨(tokenLookup pairs "zipcode").map .str,
              (tokenLookup pairs "lastname").map .str,
              (tokenLookup pairs "specialty").map .str,
              (tokenLookup pairs "gender").map .str⟩
        | none => none

/-! ## `HealthylinkxExecutor.execute` (`index.js`) as an action trace -/

/-- The `kind:'task'` creation event (no `final` property). -/
def taskCreatedEvent : XEvent := ⟨"task", some "submitted", none⟩

/-- The `working` status-update (`final: false`). -/
def workingEventH : XEvent := ⟨"status-update", some "working", some false⟩

/-- The `failed` status-update (`final: true`). -/
def failedEventH : XEvent := ⟨"status-update", some "failed", some true⟩

/-- The `completed` status-update (`final: true`). -/
def completedEventH : XEvent := ⟨"status-update", some "completed", some true⟩

/-- The artifact-update event (no `final` property). -/
def artifactEventH : XEvent := ⟨"artifact-update", none, none⟩

/-- The user message as read by `HealthylinkxExecutor`. -/
structure HMsg where
  metadata : Option JsVal
  parts : Option (List JsVal)

/-- The request context of `HealthylinkxExecutor.execute`; `taskExists`
is the truthiness of `requestContext.task`. -/
structure HCtx where
  userMessage : Option HMsg
  taskExists : Bool
  metadata : Option JsVal

/-- The action trace of one `HealthylinkxExecutor.execute` run.
`searchOk` is whether the collaborator answered with `statusCode` 200
(the search payload affects only artifact content, which is elided from
`XEvent`); event timestamps and ids are likewise elided. -/
def healthExecuteTrace (jparse : String → Except Unit JsVal) (ctx : HCtx)
    (searchOk : Bool) : List ExAction :=
  let args := parseSearchArgs jparse
    ⟨ctx.metadata, ctx.userMessage.bind (fun m => m.metadata),
      ctx.userMessage.bind (fun m => m.parts)⟩
  .extractCall ::
    match args with
    | none => [.publish failedEventH, .finishedCall]
    | some _ =>
      (if ctx.taskExists then [] else [.publish taskCreatedEvent]) ++
        [.publish workingEventH, .searchCall] ++
        (if searchOk then [.publish artifactEventH, .publish completedEventH]
          else [.publish failedEventH]) ++
        [.finishedCall]

/-! ## `LambdaA2AAdapter.handleJsonRpc`: body parsing and routing -/

/-- The default body text `'{}'` of `JSON.parse(event.body || '{}')`,
written via code points. -/
def emptyObjectText : String := "\x7b\x7d"

/-- The routing outcome of `handleJsonRpc` before any method handler
runs: either an early response (parse error, invalid request, method
not found) or the dispatch decision.  The method handlers themselves
are modeled separately (`handleMessageSend`, `handleTasksGet`,
`handleTasksCancel`); the `try`/`catch` that would convert a handler
throw into a -32603 envelope surrounds those calls only.  The `.error`
outcome is the uncaught `TypeError` thrown by destructuring a parsed
`null` body. -/
inductive Routed where
  | resp (r : LResponse)
  | callMessageSend (params : Option JsVal) (id : Option JsVal)
  | callTasksGet (params : Option JsVal) (id : Option JsVal)
  | callTasksCancel (params : Option JsVal) (id : Option JsVal)

/-- `handleJsonRpc`'s parse-and-route prefix.  `jparse` is the
`JSON.parse` oracle (`.error` models a syntax error throw); `body` is
`event.body` (`none` when absent). -/
def handleJsonRpcRoute (jparse : String → Except Unit JsVal) (body : Option String) :
    Except Unit Routed :=
  let bodyText :=
    match body with
    | none => emptyObjectText
    | some s => if s == "" then emptyObjectText else s
  match jparse bodyText with
  | .error _ =>
    .ok (.resp (createJsonRpcErrorResponse (some .null) (-32700)
      "Parse error: Invalid JSON"))
  | .ok parsed =>
    match parsed with
    | .null => .error ()
    | b =>
      let jsonrpcV := getField b "jsonrpc"
      let methodV := getField b "method"
      let paramsV := getField b "params"
      let idV := getField b "id"
      if !(isStrEq jsonrpcV "2.0") then
        .ok (.resp (createJsonRpcErrorResponse (some (jsOrNullVal idV)) (-32600)
          "Invalid Request: jsonrpc must be \"2.0\""))
      else if isStrEq methodV "message/send" then .ok (.callMessageSend paramsV idV)
      else if isStrEq methodV "tasks/get" then .ok (.callTasksGet paramsV idV)
      else if isStrEq methodV "tasks/cancel" then .ok (.callTasksCancel paramsV idV)
      else
        .ok (.resp (createJsonRpcErrorResponse idV (-32601)
          ("Method not found: " ++ optTemplate methodV ++
            ". Supported methods: message/send, tasks/get, tasks/cancel")))

/-! ## The deployment tooling (`LambdaDeployer.js`)

`waitForLambdaReady` and `sendWithConflictRetry` run against real
clocks and the AWS SDK; time is modeled as a `Nat` (milliseconds), the
configuration poll and the command send as oracles. -/

/-- `Math.round(delayMs * 1.4)` followed by `Math.min(5000, ·)`:
`d * 1.4` is never exactly half-integral (14·d always ends in an even
digit), so half-up rounding equals `⌊(14·d + 5)/10⌋` and the binary
floating-point evaluation cannot land on a rounding boundary. -/
def nextDelayWait (d : Nat) : Nat := min 5000 ((14 * d + 5) / 10)

/-- `Math.round(delayMs * 1.5)` followed by `Math.min(7000, ·)`:
`d * 1.5` is exactly representable, and half-up rounding equals
`⌊(3·d + 1)/2⌋`. -/
def nextDelayRetry (d : Nat) : Nat := min 7000 ((3 * d + 1) / 2)

/-- Outcome of `waitForLambdaReady`: the function is `void`; `ready`
is the in-deadline return, `timedOut` the "proceeding anyway" return
after the deadline log line. -/
inductive WaitOut where
  | ready
  | timedOut
deriving Repr, DecidableEq

/-- Result of a `waitForLambdaReady` run together with the number of
configuration polls performed. -/
structure WaitRes where
  out : WaitOut
  polls : Nat
deriving Repr, DecidableEq

/-- The `while (Date.now() < deadlineMs)` loop of `waitForLambdaReady`.
`poll t` is the readiness check at time `t`: `GetFunctionConfiguration`
returning `State === 'Active'` with absent-or-`Successful`
`LastUpdateStatus`; a thrown poll is caught and counts as not ready.
`extra t` is the time the poll call and sleep overshoot consume beyond
`d` at time `t`.  The delay argument is positive (initially 750 and
preserved by `nextDelayWait`). -/
def waitReadyAux (poll : Nat → Bool) (extra : Nat → Nat) (deadline : Nat) :
    (now : Nat) → (d : Nat) → 0 < d → WaitRes
  | now, d, hd =>
    if h : now < deadline then
      if poll now then ⟨.ready, 1⟩
      else
        let r := waitReadyAux poll extra deadline (now + d + extra now)
          (nextDelayWait d)
          (by
            have h10 : (1 : Nat) * 10 ≤ 14 * d + 5 := by omega
            have : (1 : Nat) ≤ (14 * d + 5) / 10 :=
              (Nat.le_div_iff_mul_le (by omega)).mpr h10
            simp only [nextDelayWait]
            omega)
        ⟨r.out, r.polls + 1⟩
    else ⟨.timedOut, 0⟩
termination_by now d hd => deadline - now
decreasing_by omega

/-- `waitForLambdaReady` from `deployLambda`: deadline 90 000 ms from
the start, initial delay 750 ms. -/
def waitForLambdaReady (poll : Nat → Bool) (extra : Nat → Nat) (start : Nat) :
    WaitRes :=
  waitReadyAux poll extra (start + 90000) start 750 (by omega)

/-- One send outcome inside `sendWithConflictRetry`: success, a
`ResourceConflictException`, or any other error. -/
inductive SendRes where
  | ok
  | conflict
  | fatal
deriving Repr, DecidableEq

/-- How a `sendWithConflictRetry` run ends: the command succeeded, a
non-conflict error was re-thrown, or the final "Lambda remained busy"
error was thrown after 12 conflicts. -/
inductive RetryOut where
  | succeeded
  | threwOther
  | gaveUpBusy
deriving Repr, DecidableEq

/-- Result of a `sendWithConflictRetry` run together with the number of
`lambda.send` attempts performed. -/
structure RetryRes where
  out : RetryOut
  sends : Nat
deriving Repr, DecidableEq

/-- The `while (attempt < 12)` loop of `sendWithConflictRetry`.
`send n` is the oracle outcome of the `n`-th attempt (each iteration
also awaits `waitForLambdaReady`, modeled separately, before
sending); only conflicts increment `attempt` and retry. -/
def sendRetryAux (send : Nat → SendRes) : (attempt : Nat) → (d : Nat) → RetryRes
  | attempt, d =>
    if h : attempt < 12 then
      match send attempt with
      | .ok => ⟨.succeeded, 1⟩
      | .fatal => ⟨.threwOther, 1⟩
      | .conflict =>
        let r := sendRetryAux send (attempt + 1) (nextDelayRetry d)
        ⟨r.out, r.sends + 1⟩
    else ⟨.gaveUpBusy, 0⟩
termination_by attempt d => 12 - attempt
decreasing_by omega

/-- `sendWithConflictRetry`: attempts start at 0, delay at 750 ms. -/
def sendWithConflictRetry (send : Nat → SendRes) : RetryRes :=
  sendRetryAux send 0 750

/-! ## Claim-side trace predicates and concrete fixtures -/

/-- The first conjunct of the temporal claim, as a decidable trace
predicate: some `working` status event is published strictly before the
first parameter-extraction call. -/
def workingBeforeExtract : List ExAction → Bool
  | [] => false
  | .extractCall :: _ => false
  | .publish e :: rest =>
    if e.state == some "working" then true else workingBeforeExtract rest
  | _ :: rest => workingBeforeExtract rest

/-- Decidable subsequence test on action traces (order-preserving, not
necessarily contiguous). -/
def isSubseq : List ExAction → List ExAction → Bool
  | [], _ => true
  | _ :: _, [] => false
  | a :: as, b :: bs => if a == b then isSubseq as bs else isSubseq (a :: as) bs

/-- Decidable check that an event is a terminal (`failed`/`completed`)
status-update carrying `final: true`. -/
def isTerminalFinal (e : XEvent) : Bool :=
  e.kind == "status-update" &&
    (e.state == some "failed" || e.state == some "completed") &&
    e.final == some true

/-- Decidable check that the last published event exists and is a
terminal status-update with `final: true`. -/
def lastIsTerminalFinal (evs : List XEvent) : Bool :=
  match evs.getLast? with
  | some e => isTerminalFinal e
  | none => false

/-- A well-formed text part `{kind:'text', text: t}`, used in concrete
scenarios. -/
def textPartVal (t : String) : JsVal :=
  .obj [("kind", .str "text"), ("text", .str t)]

/-- A sample task in a given state (fixture for concrete scenarios). -/
def sampleTask (state : String) : ATask := ⟨"t1", "c1", ⟨state, none⟩, []⟩

/-- A one-task store holding `sampleTask state` under `"t1"` (fixture). -/
def sampleStore (state : String) : Store :=
  fun k => if k = "t1" then some (sampleTask state) else none

/-- A collaborator oracle answering success with no rows (fixture). -/
def searchOkEmpty : SearchFn := fun _ _ _ _ => ⟨200, .arr []⟩

/-- A `JSON.parse` oracle defined only on `'{}'` (fixture). -/
def jparseEmptyObj : String → Except Unit JsVal :=
  fun s => if s == emptyObjectText then .ok (.obj []) else .error ()

/-! # Theorems

Helper lemmas first, then one theorem per claim (with its witness or
counterexample where required). -/

/-! ## List and string helpers -/

theorem dropWhile_append_all {α : Type} (p : α → Bool) (a b : List α)
    (h : a.all p = true) : (a ++ b).dropWhile p = b.dropWhile p := by
  induction a with
  | nil => rfl
  | cons x xs ih =>
    simp only [List.all_cons, Bool.and_eq_true] at h
    simp only [List.cons_append, List.dropWhile, h.1]
    exact ih h.2

theorem dropWhile_append_any {α : Type} (p : α → Bool) (a b : List α)
    (h : a.any (fun x => !p x) = true) :
    (a ++ b).dropWhile p = a.dropWhile p ++ b := by
  induction a with
  | nil => simp at h
  | cons x xs ih =>
    by_cases hx : p x
    · simp only [List.any_cons, hx, Bool.not_true, Bool.false_or] at h
      simp only [List.cons_append, List.dropWhile, hx]
      exact ih h
    · simp only [List.cons_append, List.dropWhile, hx]
      rfl

theorem jsTrimRight_append_allws (x w : String) (hw : w.data.all jsIsSpace = true) :
    jsTrimRight (x ++ w) = jsTrimRight x := by
  simp only [jsTrimRight, String.data_append, List.reverse_append]
  rw [dropWhile_append_all jsIsSpace w.data.reverse x.data.reverse
    (by rw [List.all_reverse]; exact hw)]

theorem jsTrimRight_append_keep (h x : String)
    (hx : x.data.any (fun c => !jsIsSpace c) = true) :
    jsTrimRight (h ++ x) = h ++ jsTrimRight x := by
  have hd : (h ++ jsTrimRight x).data = h.data ++ (jsTrimRight x).data :=
    String.data_append h (jsTrimRight x)
  have : (jsTrimRight (h ++ x)).data = h.data ++ (jsTrimRight x).data := by
    simp only [jsTrimRight, String.data_append, List.reverse_append]
    rw [dropWhile_append_any jsIsSpace x.data.reverse h.data.reverse
      (by rw [List.any_reverse]; exact hx)]
    simp [List.reverse_append]
  cases hgoal : jsTrimRight (h ++ x)
  cases hrhs : h ++ jsTrimRight x
  congr 1
  have e1 := congrArg String.data hgoal
  have e2 := congrArg String.data hrhs
  simp only at e1 e2
  rw [← e1, ← e2, this, hd]

theorem jsTrim_of_head_not_space (s : String) (c : Char) (cs : List Char)
    (hd : s.data = c :: cs) (hc : jsIsSpace c = false) :
    jsTrim s = jsTrimRight s := by
  have : jsTrimLeft s = s := by
    have : (jsTrimLeft s).data = s.data := by
      simp only [jsTrimLeft, hd, List.dropWhile, hc]
    cases hg : jsTrimLeft s
    cases hs : s
    congr 1
    have e1 := congrArg String.data hg
    have e2 := congrArg String.data hs
    simp only at e1 e2
    rw [← e1, ← e2, this]
  rw [jsTrim, this]

/-! ## Formatter lemmas -/

theorem entryBlock_decomp (i : Nat) (d : SDoc) :
    entryBlock i d = claimEntryAmended i d ++ "\n\n" := rfl

theorem buildEntries_decomp (i : Nat) (d : SDoc) (ds : List SDoc) :
    buildEntries i (d :: ds) =
      icat "\n\n" (claimEntriesAmended i (d :: ds)) ++ "\n\n" := by
  induction ds generalizing i d with
  | nil =>
    simp only [buildEntries, claimEntriesAmended, icat, entryBlock_decomp,
      String.append_empty]
  | cons d' ds ih =>
    rw [buildEntries, ih, entryBlock_decomp]
    rw [show claimEntriesAmended i (d :: d' :: ds) =
      claimEntryAmended i d :: claimEntryAmended (i + 1) d' ::
        claimEntriesAmended (i + 2) ds from rfl]
    rw [show icat "\n\n" (claimEntryAmended i d :: claimEntryAmended (i + 1) d' ::
        claimEntriesAmended (i + 2) ds) =
      claimEntryAmended i d ++ "\n\n" ++
        icat "\n\n" (claimEntryAmended (i + 1) d' ::
          claimEntriesAmended (i + 2) ds) from rfl]
    rw [show claimEntryAmended (i + 1) d' :: claimEntriesAmended (i + 2) ds =
      claimEntriesAmended (i + 1) (d' :: ds) from rfl]
    simp only [String.append_assoc]

theorem append_head {y : String} (x : String) {c : Char}
    (hy : ∃ cs, y.data = c :: cs) : ∃ t, (y ++ x).data = c :: t := by
  obtain ⟨cs, h⟩ := hy
  exact ⟨cs ++ x.data, by rw [String.data_append, h]; rfl⟩

theorem headerText_head (n : Nat) : ∃ t, (headerText n).data = 'F' :: t := by
  unfold headerText
  exact append_head _ (append_head _ (append_head _ ⟨_, rfl⟩))

theorem format_eq_amended (ds : List SDoc) :
    formatDoctorResults ds.length ds = claimFormatAmended ds := by
  cases ds with
  | nil => rfl
  | cons d ds' =>
    simp only [formatDoctorResults, claimFormatAmended, List.length_cons,
      List.isEmpty_cons, Nat.add_eq,
      if_neg (by simp : ¬((ds'.length + 1 == 0) = true)),
      Bool.false_eq_true, if_false]
    rw [buildEntries_decomp]
    rw [← String.append_assoc]
    obtain ⟨cs, hcs⟩ :=
      append_head (y := (headerText (ds'.length + 1) ++ "\n\n") ++
          icat "\n\n" (claimEntriesAmended 0 (d :: ds'))) "\n\n"
        (append_head _ (append_head _ (headerText_head (ds'.length + 1))))
    rw [jsTrim_of_head_not_space _ 'F' cs hcs (by decide)]
    rw [jsTrimRight_append_allws _ "\n\n" (by decide)]

theorem format_two_prefix (d1 d2 : SDoc) :
    ∃ rest, formatDoctorResults 2 [d1, d2] =
      "Found 2 doctors matching your search:" ++ rest := by
  have h2 := format_eq_amended [d1, d2]
  rw [show ([d1, d2] : List SDoc).length = 2 from rfl] at h2
  rw [h2]
  rw [show claimFormatAmended [d1, d2] =
    jsTrimRight (headerText 2 ++ "\n\n" ++
      icat "\n\n" (claimEntriesAmended 0 [d1, d2])) from rfl]
  rw [String.append_assoc]
  have hx : ("\n\n" ++ icat "\n\n" (claimEntriesAmended 0 [d1, d2])).data.any
      (fun c => !jsIsSpace c) = true := by
    rw [show icat "\n\n" (claimEntriesAmended 0 [d1, d2]) =
      (claimEntryAmended 0 d1 ++ "\n\n") ++ claimEntryAmended 1 d2 from rfl]
    unfold claimEntryAmended
    simp only [String.data_append, List.any_append]
    rw [show (toString (0 + 1) : String).data = ['1'] from rfl]
    simp [show (!jsIsSpace '1') = true from by decide]
  rw [jsTrimRight_append_keep _ _ hx]
  exact ⟨jsTrimRight ("\n\n" ++ icat "\n\n" (claimEntriesAmended 0 [d1, d2])),
    by rw [show headerText 2 = "Found 2 doctors matching your search:" from rfl]⟩

theorem buildEntriesDyn_on_sdocs (i : Nat) (ds : List SDoc) :
    buildEntriesDyn i (ds.map sdocToDyn) = .ok (buildEntries i ds) := by
  induction ds generalizing i with
  | nil => rfl
  | cons d ds ih =>
    simp [buildEntriesDyn, entryBlockDyn, sdocToDyn, trimField, showField,
      buildEntries, entryBlock, ih, Bind.bind, Except.bind, Pure.pure,
      Except.pure]

/-- The dynamic formatter agrees with its well-typed restriction on
records all of whose fields are strings. -/
theorem formatDyn_on_sdocs (count : Nat) (ds : List SDoc) :
    formatDoctorResultsDyn count (ds.map sdocToDyn) =
      .ok (formatDoctorResults count ds) := by
  unfold formatDoctorResultsDyn formatDoctorResults
  split
  · rfl
  · rw [buildEntriesDyn_on_sdocs]; rfl

theorem entryBlockDyn_error (i : Nat) (d : DynDoc)
    (hbad : d.name = none ∨ d.address = none ∨ d.city = none) :
    entryBlockDyn i d = .error () := by
  rcases hbad with h | h | h
  · simp [entryBlockDyn, trimField, h, Bind.bind, Except.bind]
  · cases hn : d.name <;>
      simp [entryBlockDyn, trimField, h, hn, Bind.bind, Except.bind]
  · cases hn : d.name <;> cases ha : d.address <;>
      simp [entryBlockDyn, trimField, h, hn, ha, Bind.bind, Except.bind]

theorem buildEntriesDyn_error (i : Nat) (ds : List DynDoc)
    (h : ∃ d ∈ ds, d.name = none ∨ d.address = none ∨ d.city = none) :
    buildEntriesDyn i ds = .error () := by
  induction ds generalizing i with
  | nil => simp at h
  | cons d ds ih =>
    rcases h with ⟨d', hd', hbad⟩
    rcases List.mem_cons.mp hd' with rfl | htail
    · simp [buildEntriesDyn, entryBlockDyn_error i d' hbad, Bind.bind, Except.bind]
    · cases he : entryBlockDyn i d <;>
        simp [buildEntriesDyn, he, ih (i + 1) ⟨d', htail, hbad⟩, Bind.bind,
          Except.bind]

/-! ## Claim C6 — the result formatter -/

/-- C6 counterexample: the claim renders the city verbatim, but the code
trims it; one record whose city has a leading space separates the two.
The claim as stated is therefore false. -/
theorem c6_counterexample :
    formatDoctorResults 1 [⟨"A", "B", " C", "D"⟩] ≠
      claimFormatSpec [⟨"A", "B", " C", "D"⟩] := by decide

/-- C6 (amended): for every list of doctor records, the formatter yields
the fixed sentence on the empty list and otherwise the count-aware
header followed by blank-line-separated numbered entries with name,
address *and city* trimmed and trailing whitespace of the whole text
removed (the formatter is a pure function of its arguments, so inputs
are never mutated); in particular for two records the text begins
`Found 2 doctors matching your search:`. -/
theorem c6_format_amended :
    (∀ ds : List SDoc, formatDoctorResults ds.length ds = claimFormatAmended ds) ∧
    ∀ d1 d2 : SDoc, ∃ rest, formatDoctorResults 2 [d1, d2] =
      "Found 2 doctors matching your search:" ++ rest :=
  ⟨format_eq_amended, format_two_prefix⟩

/-! ## Adapter and executor helpers -/

theorem storeSet_get_same (m : Store) (k : String) (v : ATask) :
    storeSet m k v k = some v := by simp [storeSet]

theorem dsExecute_ids (search : SearchFn) (genMsgId : String)
    (um : Option MsgIn) (task : ATask) :
    (dsExecute search genMsgId um task).task.id = task.id ∧
    (dsExecute search genMsgId um task).task.contextId = task.contextId := by
  unfold dsExecute
  dsimp only
  split
  · exact ⟨rfl, rfl⟩
  · split
    · exact ⟨rfl, rfl⟩
    · split
      · exact ⟨rfl, rfl⟩
      · split
        · exact ⟨rfl, rfl⟩
        · exact ⟨rfl, rfl⟩

/-! ## Claim C3 — unconditional cancel, then get -/

/-- C3: for every task present in the store, whatever its status
(completed and failed included — the handler performs no legality
check), `tasks/cancel` responds with the task overwritten to state
`canceled`, and a subsequent `tasks/get` on the same id returns that
canceled task. -/
theorem c3_cancel_unconditional (tasks : Store) (tid : String) (t : ATask)
    (rid rid' : Option JsVal) (hne : tid ≠ "") (hfound : tasks tid = some t) :
    (handleTasksCancel tasks (some ⟨some tid⟩) rid).2 =
      createJsonRpcSuccessResponse rid { t with status := ⟨"canceled", none⟩ } ∧
    handleTasksGet (handleTasksCancel tasks (some ⟨some tid⟩) rid).1
      (some ⟨some tid⟩) rid' =
      createJsonRpcSuccessResponse rid' { t with status := ⟨"canceled", none⟩ } := by
  have hbe : (tid == "") = false := by
    simp [hne]
  constructor
  · simp [handleTasksCancel, hbe, hfound]
  · simp [handleTasksCancel, handleTasksGet, hbe, hfound, storeSet]

/-- C3 witness: canceling a `completed` task in a concrete store, then
fetching it, yields the canceled task. -/
theorem c3_witness :
    ("t1" : String) ≠ "" ∧ sampleStore "completed" "t1" = some (sampleTask "completed") ∧
    ((handleTasksCancel (sampleStore "completed") (some ⟨some "t1"⟩) none).2 =
      createJsonRpcSuccessResponse none
        { sampleTask "completed" with status := ⟨"canceled", none⟩ } ∧
    handleTasksGet (handleTasksCancel (sampleStore "completed") (some ⟨some "t1"⟩) none).1
      (some ⟨some "t1"⟩) none =
      createJsonRpcSuccessResponse none
        { sampleTask "completed" with status := ⟨"canceled", none⟩ }) :=
  ⟨by decide, by simp [sampleStore],
    c3_cancel_unconditional (sampleStore "completed") "t1" (sampleTask "completed")
      none none (by decide) (by simp [sampleStore])⟩

/-! ## Claim C5 — message-send / task-get round trip -/

/-- C5: every `message/send` that creates a task (message present,
non-falsy effective task id — generated ids, `task-…`, are never empty)
stores the executor's task and returns it in a success envelope, and a
subsequent `tasks/get` with that task's id on the same adapter instance
returns the very same task — in particular the same id, contextId and
status. -/
theorem c5_roundtrip (search : SearchFn) (genTaskId genContextId genMsgId : String)
    (tasks : Store) (p : SendParams) (m : MsgIn) (rid rid' : Option JsVal)
    (hm : p.message = some m) (hid : jsOrStr p.id genTaskId ≠ "") :
    ∃ t : ATask,
      (handleMessageSend search genTaskId genContextId genMsgId tasks (some p) rid).2 =
        createJsonRpcSuccessResponse rid t ∧
      handleTasksGet
        (handleMessageSend search genTaskId genContextId genMsgId tasks (some p) rid).1
        (some ⟨some t.id⟩) rid' = createJsonRpcSuccessResponse rid' t := by
  refine ⟨(dsExecute search genMsgId (some m)
    ⟨jsOrStr p.id genTaskId, jsOrStr p.contextId genContextId,
      ⟨"submitted", none⟩, []⟩).task, ?_, ?_⟩
  · simp [handleMessageSend, hm]
  · have hids := (dsExecute_ids search genMsgId (some m)
      ⟨jsOrStr p.id genTaskId, jsOrStr p.contextId genContextId,
        ⟨"submitted", none⟩, []⟩).1
    have hbe : (jsOrStr p.id genTaskId == "") = false := by simp [hid]
    simp [handleMessageSend, hm, handleTasksGet, hids, hbe, storeSet_get_same]

/-- C5 witness: a concrete send (message `hello`, generated ids) then
get round-trips. -/
theorem c5_witness :
    (some (⟨some [textPartVal "hello"]⟩ : MsgIn) =
      some (⟨some [textPartVal "hello"]⟩ : MsgIn)) ∧
    jsOrStr none "task-1" ≠ "" ∧
    ∃ t : ATask,
      (handleMessageSend searchOkEmpty "task-1" "ctx-1" "msg-1" emptyStore
        (some ⟨none, none, some ⟨some [textPartVal "hello"]⟩⟩) none).2 =
        createJsonRpcSuccessResponse none t ∧
      handleTasksGet
        (handleMessageSend searchOkEmpty "task-1" "ctx-1" "msg-1" emptyStore
          (some ⟨none, none, some ⟨some [textPartVal "hello"]⟩⟩) none).1
        (some ⟨some t.id⟩) none = createJsonRpcSuccessResponse none t :=
  ⟨rfl, by decide,
    c5_roundtrip searchOkEmpty "task-1" "ctx-1" "msg-1" emptyStore
      ⟨none, none, some ⟨some [textPartVal "hello"]⟩⟩ ⟨some [textPartVal "hello"]⟩
      none none rfl (by decide)⟩

/-! ## Claim C7 — unknown task id -/

/-- C7 counterexample: a `tasks/get` for an id absent from the store
answers with JSON-RPC code -32000 (the adapter's generic
`SERVER_ERROR`), not the claimed task-not-found code -32001. -/
theorem c7_counterexample :
    respErrorCode (handleTasksGet emptyStore (some ⟨some "t1"⟩) none) =
      some (-32000) ∧
    respErrorCode (handleTasksGet emptyStore (some ⟨some "t1"⟩) none) ≠
      some (-32001) := by
  constructor
  · rfl
  · decide

/-- C7 (amended): for every `tasks/get` or `tasks/cancel` whose task id
is not in the store, the adapter responds with a `Task not found` error
carrying code -32000 (and cancel leaves the store untouched); the REST
variant's `a2aErrorToHttpStatus` maps the A2A task-not-found code -32001
to HTTP 404 when the SDK raises it. -/
theorem c7_task_not_found_amended (tasks : Store) (tid : String)
    (rid rid' : Option JsVal) (hne : tid ≠ "") (hmiss : tasks tid = none) :
    handleTasksGet tasks (some ⟨some tid⟩) rid =
      createJsonRpcErrorResponse rid (-32000)
        ("Task not found: " ++ tid ++
          ". Note: Tasks are only stored within a single Lambda invocation.") ∧
    (handleTasksCancel tasks (some ⟨some tid⟩) rid').1 = tasks ∧
    (handleTasksCancel tasks (some ⟨some tid⟩) rid').2 =
      createJsonRpcErrorResponse rid' (-32000)
        ("Task not found: " ++ tid ++
          ". Note: Tasks are only stored within a single Lambda invocation.") ∧
    a2aErrorToHttpStatus (-32001) = 404 := by
  have hbe : (tid == "") = false := by simp [hne]
  refine ⟨?_, ?_, ?_, by decide⟩
  · simp [handleTasksGet, hbe, hmiss]
  · simp [handleTasksCancel, hbe, hmiss]
  · simp [handleTasksCancel, hbe, hmiss]

/-- C7 witness: the amended behavior at a concrete store and id. -/
theorem c7_witness :
    ("t9" : String) ≠ "" ∧ emptyStore "t9" = none ∧
    (handleTasksGet emptyStore (some ⟨some "t9"⟩) none =
      createJsonRpcErrorResponse none (-32000)
        ("Task not found: " ++ "t9" ++
          ". Note: Tasks are only stored within a single Lambda invocation.") ∧
    (handleTasksCancel emptyStore (some ⟨some "t9"⟩) none).1 = emptyStore ∧
    (handleTasksCancel emptyStore (some ⟨some "t9"⟩) none).2 =
      createJsonRpcErrorResponse none (-32000)
        ("Task not found: " ++ "t9" ++
          ". Note: Tasks are only stored within a single Lambda invocation.") ∧
    a2aErrorToHttpStatus (-32001) = 404) :=
  ⟨by decide, rfl,
    c7_task_not_found_amended emptyStore "t9" none none (by decide) rfl⟩

/-! ## Claim C1 — no extractable parameters in the message -/

/-- C1 counterexample: in the `LambdaA2AAdapter` variant, a
`message/send` with text `hello` (no zipcode, no lastname pattern) is
answered with a JSON-RPC *success* envelope carrying the failed task
(whose status error code is -32000), not with a JSON-RPC error of code
-32602 — the claim as stated is false for this variant. -/
theorem c1_counterexample :
    (handleMessageSend searchOkEmpty "task-1" "ctx-1" "msg-1" emptyStore
      (some ⟨none, none, some ⟨some [textPartVal "hello"]⟩⟩)
      (some (.num (some 1)))).2 =
      createJsonRpcSuccessResponse (some (.num (some 1)))
        (createErrorResult ⟨"task-1", "ctx-1", ⟨"submitted", none⟩, []⟩ "msg-1"
          (.str missingParamsText)) ∧
    respErrorCode
      ((handleMessageSend searchOkEmpty "task-1" "ctx-1" "msg-1" emptyStore
        (some ⟨none, none, some ⟨some [textPartVal "hello"]⟩⟩)
        (some (.num (some 1)))).2) = none := by
  exact ⟨rfl, rfl⟩

/-- C1 (amended): for every message whose extracted text matches neither
the 5-digit-zipcode regex nor the lastname regex, parameter extraction
fails and `SearchDoctors` is never invoked in both variants; the Express
variant answers with a JSON-RPC error of code -32602, while the Lambda
adapter answers with a JSON-RPC success envelope whose result is the
failed task carrying error code -32000 and the missing-parameters
message. -/
theorem c1_missing_params_amended :
    (∀ (search : SearchFn) (g1 g2 g3 : String) (p : ExpParams) (idv : Option JsVal),
      findZipcode (expExtractMessage p) = none →
      findLastname (expExtractMessage p) = none →
      executeDoctorSearch search p = (.err (-32602) (.str missingParamsText), false) ∧
      a2aPost search g1 g2 g3
        ⟨some (.str "2.0"), some (.str "message/send"), some p, idv⟩ =
        .rpcError (-32602) (.str missingParamsText) idv) ∧
    (∀ (search : SearchFn) (gT gC gM : String) (tasks : Store)
      (p : SendParams) (m : MsgIn) (rid : Option JsVal),
      p.message = some m →
      findZipcode (extractMessageText (some m)) = none →
      findLastname (extractMessageText (some m)) = none →
      (dsExecute search gM (some m)
        ⟨jsOrStr p.id gT, jsOrStr p.contextId gC, ⟨"submitted", none⟩, []⟩).searchCalled
        = false ∧
      (handleMessageSend search gT gC gM tasks (some p) rid).2 =
        createJsonRpcSuccessResponse rid
          (createErrorResult
            ⟨jsOrStr p.id gT, jsOrStr p.contextId gC, ⟨"submitted", none⟩, []⟩ gM
            (.str missingParamsText))) := by
  constructor
  · intro search g1 g2 g3 p idv hz hl
    have hout : executeDoctorSearch search p =
        (.err (-32602) (.str missingParamsText), false) := by
      simp [executeDoctorSearch, parseSearchMessage, hz, hl, falsyNum, falsyStr]
    refine ⟨hout, ?_⟩
    simp [a2aPost, isStrEq, hout]
  · intro search gT gC gM tasks p m rid hm hz hl
    have hout : dsExecute search gM (some m)
        ⟨jsOrStr p.id gT, jsOrStr p.contextId gC, ⟨"submitted", none⟩, []⟩ =
        ⟨createErrorResult
          ⟨jsOrStr p.id gT, jsOrStr p.contextId gC, ⟨"submitted", none⟩, []⟩ gM
          (.str missingParamsText), false,
          [.publish workingEventDS] ++ [.extractCall]⟩ := by
      simp [dsExecute, parseSearchMessage, hz, hl, falsyNum, falsyStr]
    constructor
    · rw [hout]
    · simp [handleMessageSend, hm, hout]

/-- C1 witness: the amended behavior at the concrete message `hello` in
both variants. -/
theorem c1_witness :
    findZipcode (expExtractMessage ⟨some (.msgStr "hello")⟩) = none ∧
    findLastname (expExtractMessage ⟨some (.msgStr "hello")⟩) = none ∧
    a2aPost searchOkEmpty "task-1" "ctx-1" "msg-1"
      ⟨some (.str "2.0"), some (.str "message/send"),
        some ⟨some (.msgStr "hello")⟩, none⟩ =
      .rpcError (-32602) (.str missingParamsText) none :=
  ⟨by decide, by decide,
    (c1_missing_params_amended.1 searchOkEmpty "task-1" "ctx-1" "msg-1"
      ⟨some (.msgStr "hello")⟩ none (by decide) (by decide)).2⟩

/-! ## Claim C2 — zipcode-only queries -/

/-- C2 counterexample: in the `index.js` variant a structured
`searchDoctors` payload with only a valid zipcode fails extraction
(`SearchDoctorsArgsSchema` requires `lastname`), and the executor run
for such a request publishes `failed` — the claim as stated is false for
that variant. -/
theorem c2_counterexample :
    parseSearchArgs (fun _ => .error ())
      ⟨some (.obj [("searchDoctors", .obj [("zipcode", .num (some 12345))])]),
        none, none⟩ = none ∧
    healthExecuteTrace (fun _ => .error ())
      ⟨none, false,
        some (.obj [("searchDoctors", .obj [("zipcode", .num (some 12345))])])⟩
      true =
      [.extractCall, .publish failedEventH, .finishedCall] := by
  exact ⟨rfl, rfl⟩

/-- C2 (amended): in the regex-based variants a query whose extracted
text yields only a (5-digit) zipcode passes validation and the
collaborator is invoked; in the zod-schema variant `lastname` is
required, so every candidate with only zipcode set fails validation. -/
theorem c2_zipcode_only_amended :
    (∀ (search : SearchFn) (gM : String) (um : Option MsgIn) (task : ATask) (z : Nat),
      findZipcode (extractMessageText um) = some z →
      findLastname (extractMessageText um) = none →
      findGender (extractMessageText um) = none →
      findSpecialty (extractMessageText um) = none →
      10000 ≤ z → z ≤ 99999 →
      (dsExecute search gM um task).searchCalled = true) ∧
    (∀ (search : SearchFn) (p : ExpParams) (z : Nat),
      findZipcode (expExtractMessage p) = some z →
      findLastname (expExtractMessage p) = none →
      findGender (expExtractMessage p) = none →
      findSpecialty (expExtractMessage p) = none →
      10000 ≤ z → z ≤ 99999 →
      (executeDoctorSearch search p).2 = true) ∧
    (∀ n : Int,
      safeParseSearchDoctorsArgs ⟨some (.num (some n)), none, none, none⟩ = none) := by
  refine ⟨?_, ?_, ?_⟩
  · intro search gM um task z hz hl hg hs hlo hhi
    have hz0 : (z == 0) = false := by
      have hzne : z ≠ 0 := by omega
      simpa using hzne
    unfold dsExecute
    dsimp only
    rw [show (parseSearchMessage (extractMessageText um)).zipcode = some z from hz,
      show (parseSearchMessage (extractMessageText um)).lastname = none from hl]
    simp only [falsyNum, falsyStr, hz0, Bool.false_and, Bool.false_eq_true,
      if_false]
    split
    · rfl
    · split
      · rfl
      · split
        · rfl
        · rfl
  · intro search p z hz hl hg hs hlo hhi
    have hz0 : (z == 0) = false := by
      have hzne : z ≠ 0 := by omega
      simpa using hzne
    unfold executeDoctorSearch
    dsimp only
    rw [show (parseSearchMessage (expExtractMessage p)).zipcode = some z from hz,
      show (parseSearchMessage (expExtractMessage p)).lastname = none from hl]
    simp only [falsyNum, falsyStr, hz0, Bool.false_and, Bool.false_eq_true,
      if_false]
    split
    · rfl
    · split
      · rfl
      · rfl
  · intro n
    cases h : zodZipcode (some (.num (some n))) <;>
      simp [safeParseSearchDoctorsArgs, h, zodLastname]

/-- C2 witness: the amended behavior at the concrete message
`Find doctors in 12345` and at the schema input `{zipcode: 12345}`. -/
theorem c2_witness :
    findZipcode (extractMessageText (some ⟨some [textPartVal "Find doctors in 12345"]⟩)) =
      some 12345 ∧
    findLastname (extractMessageText (some ⟨some [textPartVal "Find doctors in 12345"]⟩)) =
      none ∧
    (dsExecute searchOkEmpty "msg-1"
      (some ⟨some [textPartVal "Find doctors in 12345"]⟩)
      (sampleTask "submitted")).searchCalled = true ∧
    safeParseSearchDoctorsArgs ⟨some (.num (some 12345)), none, none, none⟩ = none :=
  ⟨by decide, by decide,
    c2_zipcode_only_amended.1 searchOkEmpty "msg-1"
      (some ⟨some [textPartVal "Find doctors in 12345"]⟩) (sampleTask "submitted")
      12345 (by decide) (by decide) (by decide) (by decide) (by decide) (by decide),
    c2_zipcode_only_amended.2.2 12345⟩

/-! ## Claim C9 — non-string record fields -/

/-- C9: whenever the collaborator answers 200 with a row whose mapped
name, address or city is not a string, the formatter's unguarded
`.trim()` throws, `DoctorSearchExecutor.execute` catches the exception,
and the run returns (never re-throws) a failed task carrying the generic
`Internal error during doctor search` message instead of a completed
task. -/
theorem c9_bad_record_internal_error (search : SearchFn) (gM : String)
    (um : Option MsgIn) (task : ATask) (rows : List DynRow)
    (hval : (falsyNum (parseSearchMessage (extractMessageText um)).zipcode &&
      falsyStr (parseSearchMessage (extractMessageText um)).lastname) = false)
    (hs : search (parseSearchMessage (extractMessageText um)).gender
      (parseSearchMessage (extractMessageText um)).lastname
      (parseSearchMessage (extractMessageText um)).specialty
      (parseSearchMessage (extractMessageText um)).zipcode = ⟨200, .arr rows⟩)
    (hbad : ∃ r ∈ rows, r.Provider_Full_Name = none ∨
      r.Provider_Full_Street = none ∨ r.Provider_Full_City = none) :
    dsExecute search gM um task =
      ⟨createErrorResult task gM (.str internalErrorText), true,
        [.publish workingEventDS] ++ [.extractCall, .searchCall]⟩ ∧
    (dsExecute search gM um task).task.status =
      ⟨"failed", some ⟨-32000, .str internalErrorText⟩⟩ := by
  have hfmt : formatDoctorResultsDyn (rows.map rowToDoc).length
      (rows.map rowToDoc) = .error () := by
    obtain ⟨r, hr, hbadr⟩ := hbad
    have hne : (rows.map rowToDoc).length ≠ 0 := by
      have := List.length_pos.mpr (List.ne_nil_of_mem hr)
      simp only [List.length_map]
      omega
    unfold formatDoctorResultsDyn
    rw [if_neg (by simpa using hne)]
    rw [buildEntriesDyn_error 0 (rows.map rowToDoc)
      ⟨rowToDoc r, List.mem_map_of_mem _ hr, by
        rcases hbadr with h | h | h <;> simp [rowToDoc, h]⟩]
    rfl
  have hres : dsExecute search gM um task =
      ⟨createErrorResult task gM (.str internalErrorText), true,
        [.publish workingEventDS] ++ [.extractCall, .searchCall]⟩ := by
    unfold dsExecute
    dsimp only
    rw [hval]
    simp only [Bool.false_eq_true, if_false, hs]
    rw [show ((⟨200, .arr rows⟩ : SearchRes).statusCode != 200) = false from rfl]
    simp only [Bool.false_eq_true, if_false]
    rw [hfmt]
  exact ⟨hres, by rw [hres]; rfl⟩

/-- C9 witness: a concrete run (message `doctors in 10001`, one row with
a missing name) returns the failed internal-error task. -/
theorem c9_witness :
    (falsyNum (parseSearchMessage (extractMessageText
        (some ⟨some [textPartVal "doctors in 10001"]⟩))).zipcode &&
      falsyStr (parseSearchMessage (extractMessageText
        (some ⟨some [textPartVal "doctors in 10001"]⟩))).lastname) = false ∧
    (∃ r ∈ [(⟨none, some "5 Main St", some "NYC", some "Cardiology"⟩ : DynRow)],
      r.Provider_Full_Name = none ∨ r.Provider_Full_Street = none ∨
        r.Provider_Full_City = none) ∧
    (dsExecute
        (fun _ _ _ _ =>
          ⟨200, .arr [⟨none, some "5 Main St", some "NYC", some "Cardiology"⟩]⟩)
        "msg-1" (some ⟨some [textPartVal "doctors in 10001"]⟩)
        (sampleTask "submitted")).task.status =
      ⟨"failed", some ⟨-32000, .str internalErrorText⟩⟩ :=
  ⟨by decide,
    ⟨⟨none, some "5 Main St", some "NYC", some "Cardiology"⟩, by simp, Or.inl rfl⟩,
    (c9_bad_record_internal_error
      (fun _ _ _ _ =>
        ⟨200, .arr [⟨none, some "5 Main St", some "NYC", some "Cardiology"⟩]⟩)
      "msg-1" (some ⟨some [textPartVal "doctors in 10001"]⟩)
      (sampleTask "submitted")
      [⟨none, some "5 Main St", some "NYC", some "Cardiology"⟩]
      (by decide) rfl
      ⟨⟨none, some "5 Main St", some "NYC", some "Cardiology"⟩, by simp,
        Or.inl rfl⟩).2⟩

/-! ## Claim C4 — event ordering and final flags -/

/-- C4 counterexample: in a `HealthylinkxExecutor` run whose message
(`hello`) yields no parameters, the trace is extraction first, then the
terminal `failed` update — no `working` status is published before the
Parameter Extractor is invoked (the extractor always runs first), so the
claim as stated is false. -/
theorem c4_counterexample :
    healthExecuteTrace jparseEmptyObj
      ⟨some ⟨none, some [textPartVal "hello"]⟩, false, none⟩ true =
      [.extractCall, .publish failedEventH, .finishedCall] ∧
    workingBeforeExtract
      (healthExecuteTrace jparseEmptyObj
        ⟨some ⟨none, some [textPartVal "hello"]⟩, false, none⟩ true) = false := by
  exact ⟨rfl, rfl⟩

/-- C4 (amended): in every `HealthylinkxExecutor` run the Parameter
Extractor is invoked first; the last published event is a terminal
(`failed`/`completed`) status-update with `final: true`; every published
non-terminal status-update carries `final: false`; task-creation and
artifact events carry no `final` flag; and when the collaborator is
invoked, a `working` update (final=false) precedes that call.  The
`DoctorSearchExecutor` variant instead publishes its `working` event
(which has no `final` property) before extraction, and publishes no
terminal event at all — the terminal status is returned, not
published. -/
theorem c4_event_discipline_amended :
    (∀ (jparse : String → Except Unit JsVal) (ctx : HCtx) (searchOk : Bool),
      (healthExecuteTrace jparse ctx searchOk).head? = some .extractCall ∧
      lastIsTerminalFinal
        (publishedEvents (healthExecuteTrace jparse ctx searchOk)) = true ∧
      (∀ e ∈ publishedEvents (healthExecuteTrace jparse ctx searchOk),
        e.kind = "status-update" → e.state ≠ some "failed" →
        e.state ≠ some "completed" → e.final = some false) ∧
      (∀ e ∈ publishedEvents (healthExecuteTrace jparse ctx searchOk),
        e.kind ≠ "status-update" → e.final = none) ∧
      (ExAction.searchCall ∈ healthExecuteTrace jparse ctx searchOk →
        isSubseq [.publish workingEventH, .searchCall]
          (healthExecuteTrace jparse ctx searchOk) = true)) ∧
    (∀ (search : SearchFn) (gM : String) (um : Option MsgIn) (task : ATask),
      (dsExecute search gM um task).trace.head? =
        some (.publish workingEventDS) ∧
      publishedEvents (dsExecute search gM um task).trace = [workingEventDS] ∧
      workingEventDS.final = none) := by
  constructor
  · intro jparse ctx searchOk
    rcases ctx with ⟨um0, te, md⟩
    unfold healthExecuteTrace
    dsimp only
    cases hargs : parseSearchArgs jparse
        ⟨md, um0.bind (fun m => m.metadata), um0.bind (fun m => m.parts)⟩ with
    | none =>
      dsimp only
      exact ⟨rfl, by decide, by decide, by decide, by decide⟩
    | some a =>
      cases te <;> cases searchOk <;>
        (dsimp only; exact ⟨rfl, by decide, by decide, by decide, by decide⟩)
  · intro search gM um task
    unfold dsExecute
    dsimp only
    split
    · exact ⟨rfl, rfl, rfl⟩
    · split
      · exact ⟨rfl, rfl, rfl⟩
      · split
        · exact ⟨rfl, rfl, rfl⟩
        · split
          · exact ⟨rfl, rfl, rfl⟩
          · exact ⟨rfl, rfl, rfl⟩

/-- C4 witness: the amended discipline at a concrete successful run and
a concrete executor run. -/
theorem c4_witness :
    (healthExecuteTrace jparseEmptyObj
      ⟨some ⟨none, some [textPartVal "zipcode=10001 lastname=Smith"]⟩, false, none⟩
      true).head? = some .extractCall ∧
    lastIsTerminalFinal
      (publishedEvents (healthExecuteTrace jparseEmptyObj
        ⟨some ⟨none, some [textPartVal "zipcode=10001 lastname=Smith"]⟩, false, none⟩
        true)) = true ∧
    (dsExecute searchOkEmpty "msg-1"
      (some ⟨some [textPartVal "zipcode 10001"]⟩)
      (sampleTask "submitted")).trace.head? = some (.publish workingEventDS) :=
  ⟨(c4_event_discipline_amended.1 jparseEmptyObj
      ⟨some ⟨none, some [textPartVal "zipcode=10001 lastname=Smith"]⟩, false, none⟩
      true).1,
    (c4_event_discipline_amended.1 jparseEmptyObj
      ⟨some ⟨none, some [textPartVal "zipcode=10001 lastname=Smith"]⟩, false, none⟩
      true).2.1,
    (c4_event_discipline_amended.2 searchOkEmpty "msg-1"
      (some ⟨some [textPartVal "zipcode 10001"]⟩) (sampleTask "submitted")).1⟩

/-! ## Claim C8 — deployment polling terminates -/

theorem waitReadyAux_past (poll : Nat → Bool) (extra : Nat → Nat)
    (deadline now d : Nat) (hd : 0 < d) (h : deadline ≤ now) :
    waitReadyAux poll extra deadline now d hd = ⟨.timedOut, 0⟩ := by
  unfold waitReadyAux
  simp [Nat.not_lt.mpr h]

theorem nextDelayWait_ge (d : Nat) (h750 : 750 ≤ d) : 750 ≤ nextDelayWait d := by
  have h1 : (1050 : Nat) ≤ (14 * d + 5) / 10 :=
    (Nat.le_div_iff_mul_le (by omega)).mpr (by omega)
  simp only [nextDelayWait]
  omega

theorem waitReadyAux_polls_le (poll : Nat → Bool) (extra : Nat → Nat)
    (deadline : Nat) :
    ∀ (fuel now d : Nat) (hd : 0 < d), 750 ≤ d → deadline - now ≤ fuel →
    (waitReadyAux poll extra deadline now d hd).polls * 750 ≤
      (deadline - now) + 749 := by
  intro fuel
  induction fuel with
  | zero =>
    intro now d hd h750 hle
    rw [waitReadyAux_past poll extra deadline now d hd (by omega)]
    simp
  | succ fuel ih =>
    intro now d hd h750 hle
    by_cases h : now < deadline
    · unfold waitReadyAux
      simp only [dif_pos h]
      by_cases hp : poll now
      · simp only [hp, if_true]
        omega
      · simp only [hp, Bool.false_eq_true, if_false]
        by_cases h2 : deadline ≤ now + d + extra now
        · rw [waitReadyAux_past poll extra deadline (now + d + extra now)
            (nextDelayWait d) _ h2]
          show (0 + 1) * 750 ≤ deadline - now + 749
          omega
        · have hrec := ih (now + d + extra now) (nextDelayWait d)
            (by have := nextDelayWait_ge d h750; omega)
            (nextDelayWait_ge d h750) (by omega)
          omega
    · rw [waitReadyAux_past poll extra deadline now d hd (by omega)]
      simp

theorem sendRetryAux_sends_le (send : Nat → SendRes) :
    ∀ (fuel attempt d : Nat), 12 - attempt ≤ fuel →
    (sendRetryAux send attempt d).sends ≤ 12 - attempt := by
  intro fuel
  induction fuel with
  | zero =>
    intro attempt d hle
    unfold sendRetryAux
    simp only [dif_neg (by omega : ¬ attempt < 12)]
    omega
  | succ fuel ih =>
    intro attempt d hle
    unfold sendRetryAux
    by_cases h : attempt < 12
    · simp only [dif_pos h]
      cases send attempt with
      | ok => dsimp only; omega
      | fatal => dsimp only; omega
      | conflict =>
        have hrec := ih (attempt + 1) (nextDelayRetry d) (by omega)
        dsimp only
        omega
    · simp only [dif_neg h]
      omega

/-- C8: the readiness polling of `waitForLambdaReady` performs at most
120 configuration polls (exponential backoff from 750 ms under the hard
90-second deadline), returns immediately — proceeding anyway — once the
deadline has passed, and `sendWithConflictRetry` performs at most 12
send attempts before giving up; both loops are total functions of their
oracles, so neither loops forever. -/
theorem c8_termination_bounds :
    (∀ (poll : Nat → Bool) (extra : Nat → Nat) (start : Nat),
      (waitForLambdaReady poll extra start).polls ≤ 120) ∧
    (∀ (poll : Nat → Bool) (extra : Nat → Nat) (deadline now d : Nat)
      (hd : 0 < d), deadline ≤ now →
      waitReadyAux poll extra deadline now d hd = ⟨.timedOut, 0⟩) ∧
    (∀ send : Nat → SendRes, (sendWithConflictRetry send).sends ≤ 12) := by
  refine ⟨?_, ?_, ?_⟩
  · intro poll extra start
    have h := waitReadyAux_polls_le poll extra (start + 90000) 90000 start 750
      (by omega) (by omega) (by omega)
    unfold waitForLambdaReady
    omega
  · intro poll extra deadline now d hd h
    exact waitReadyAux_past poll extra deadline now d hd h
  · intro send
    have h := sendRetryAux_sends_le send 12 0 750 (by omega)
    unfold sendWithConflictRetry
    omega

/-- C8 witness: the bounds at concrete oracles — a never-ready poll, a
started-after-deadline wait, and an always-conflicting send. -/
theorem c8_witness :
    (waitForLambdaReady (fun _ => false) (fun _ => 0) 0).polls ≤ 120 ∧
    ((0 : Nat) < 3 ∧ (5 : Nat) ≤ 5 ∧
      waitReadyAux (fun _ => false) (fun _ => 0) 5 5 3 (by omega) =
        ⟨.timedOut, 0⟩) ∧
    (sendWithConflictRetry (fun _ => .conflict)).sends ≤ 12 :=
  ⟨c8_termination_bounds.1 (fun _ => false) (fun _ => 0) 0,
    ⟨by omega, by omega,
      c8_termination_bounds.2.1 (fun _ => false) (fun _ => 0) 5 5 3 (by omega)
        (by omega)⟩,
    c8_termination_bounds.2.2 (fun _ => .conflict)⟩

/-! ## Claim C10 — missing body parses as `{}` -/

/-- C10: `handleJsonRpc` parses a missing or empty `event.body` as the
empty JSON object, so (because `jsonrpc` is then not `"2.0"`) the
response is the invalid-request error -32600 with a `null` id — never
the parse error -32700; conversely a -32700 response can only arise
from a present, non-empty body that `JSON.parse` rejects.  `jparse` is
the `JSON.parse` oracle; the sole assumption is that it parses `'{}'`
to the empty object. -/
theorem c10_empty_body_invalid_request (jparse : String → Except Unit JsVal)
    (body : Option String) (hparse : jparse emptyObjectText = .ok (.obj [])) :
    ((body = none ∨ body = some "") →
      handleJsonRpcRoute jparse body =
        .ok (.resp (createJsonRpcErrorResponse (some .null) (-32600)
          "Invalid Request: jsonrpc must be \"2.0\""))) ∧
    (∀ r, handleJsonRpcRoute jparse body = .ok (.resp r) →
      respErrorCode r = some (-32700) →
      ∃ s, body = some s ∧ s ≠ "" ∧ jparse s = .error ()) := by
  constructor
  · rintro (rfl | rfl) <;>
      simp [handleJsonRpcRoute, hparse, getField, isStrEq, jsOrNullVal,
        createJsonRpcErrorResponse]
  · intro r hr hcode
    match hbody : body with
    | none =>
      simp [handleJsonRpcRoute, hparse, getField, isStrEq, jsOrNullVal] at hr
      rw [← hr] at hcode
      simp [respErrorCode, createJsonRpcErrorResponse] at hcode
    | some s =>
      by_cases hs : s = ""
      · subst hs
        simp [handleJsonRpcRoute, hparse, getField, isStrEq, jsOrNullVal] at hr
        rw [← hr] at hcode
        simp [respErrorCode, createJsonRpcErrorResponse] at hcode
      · refine ⟨s, rfl, hs, ?_⟩
        have hbt : (s == "") = false := by simp [hs]
        cases hjp : jparse s with
        | error a => cases a; rfl
        | ok v =>
          exfalso
          simp only [handleJsonRpcRoute, hbt, Bool.false_eq_true, if_false,
            hjp] at hr
          cases v <;> dsimp only at hr <;>
            first
              | exact Except.noConfusion hr
              | (repeat' split at hr
                 all_goals simp at hr
                 all_goals subst hr
                 all_goals simp [respErrorCode, createJsonRpcErrorResponse] at hcode)

/-- C10 witness: with a concrete parse oracle and an absent body, the
route yields the -32600 invalid-request response. -/
theorem c10_witness :
    jparseEmptyObj emptyObjectText = .ok (.obj []) ∧
    ((none : Option String) = none ∨ (none : Option String) = some "") ∧
    handleJsonRpcRoute jparseEmptyObj none =
      .ok (.resp (createJsonRpcErrorResponse (some .null) (-32600)
        "Invalid Request: jsonrpc must be \"2.0\"")) :=
  ⟨rfl, Or.inl rfl,
    (c10_empty_body_invalid_request jparseEmptyObj none rfl).1 (Or.inl rfl)⟩
